import Mathlib

/-
  Verification of the autodocs symbol-extraction core against its
  natural-language specification.

  The Python source (src/autodocs/parsers.py, src/autodocs/tools.py) runs
  tree-sitter structural queries over a concrete syntax tree and normalizes
  the captures into typed records.  We embed the concrete syntax tree, the
  specific queries the source registers (hand-compiled into Lean matchers
  following the query strings), and the extraction code, then prove or refute
  the spec's claims.
-/

namespace Autodocs

mutual

/-- A concrete syntax tree node, as exposed by the tree-sitter runtime:
a kind tag, whether the node is named (anonymous nodes are literal tokens
whose kind is their text), the raw source text of the node's span, the
field name under which the parent holds this child (if any), and the
ordered children.  Children are stored in a companion list type so that
all recursion over the tree is plain mutual structural recursion. -/
inductive Node : Type where
  | mk (fieldName : Option String) (kind : String) (named : Bool)
       (text : String) (children : NodeChildren)

/-- Ordered children of a `Node`. -/
inductive NodeChildren : Type where
  | nil
  | cons (hd : Node) (tl : NodeChildren)

end

/-- Build a `NodeChildren` from a list. -/
def NodeChildren.ofList : List Node → NodeChildren
  | [] => .nil
  | n :: ns => .cons n (NodeChildren.ofList ns)

/-- View a `NodeChildren` as a list. -/
def NodeChildren.toList : NodeChildren → List Node
  | .nil => []
  | .cons n ns => n :: NodeChildren.toList ns

/-- Smart constructor taking the children as a list. -/
def Node.node (fieldName : Option String) (kind : String) (named : Bool)
    (text : String) (cs : List Node) : Node :=
  Node.mk fieldName kind named text (NodeChildren.ofList cs)

/-- The field name under which this node sits in its parent. -/
def Node.fieldName : Node → Option String
  | .mk f _ _ _ _ => f

/-- The node's kind tag (for anonymous token nodes, the literal text). -/
def Node.kind : Node → String
  | .mk _ k _ _ _ => k

/-- Whether the node is a named node of the grammar. -/
def Node.named : Node → Bool
  | .mk _ _ nm _ _ => nm

/-- The raw source text of the node's span. -/
def Node.text : Node → String
  | .mk _ _ _ t _ => t

/-- The node's children, as a list. -/
def Node.children : Node → List Node
  | .mk _ _ _ _ cs => cs.toList

/-- `node.named_children` of the tree-sitter API: the named children, in
order. -/
def Node.namedChildren (n : Node) : List Node :=
  n.children.filter (fun c => c.named)

/-- `node.named_child(i)` of the tree-sitter API. -/
def Node.namedChild (n : Node) (i : Nat) : Option Node :=
  n.namedChildren.get? i

/-- `node.child_by_field_name(f)` of the tree-sitter API: the first child
held under field `f`. -/
def Node.childByField (n : Node) (f : String) : Option Node :=
  n.children.find? (fun c => c.fieldName == some f)

mutual

/-- All nodes of the tree in preorder (document order), the order in which
the tree-sitter query cursor visits pattern-root candidates. -/
def Node.preorder : Node → List Node
  | .mk f k nm t cs => .mk f k nm t cs :: NodeChildren.preorderList cs

/-- Preorder traversal of a child list. -/
def NodeChildren.preorderList : NodeChildren → List Node
  | .nil => []
  | .cons c cs => c.preorder ++ NodeChildren.preorderList cs

end

mutual

/-- Structural node equality, modelling the `==` comparison on tree-sitter
nodes used at `parsers.py:282` (Python compares node identity; identical
nodes are in particular structurally equal, and the proofs below use only
that equal nodes have equal kinds). -/
def Node.beq : Node → Node → Bool
  | .mk f k nm t cs, .mk f' k' nm' t' cs' =>
    f == f' && k == k' && nm == nm' && t == t' && NodeChildren.beqList cs cs'

/-- Structural equality of child lists. -/
def NodeChildren.beqList : NodeChildren → NodeChildren → Bool
  | .nil, .nil => true
  | .cons c cs, .cons d ds => Node.beq c d && NodeChildren.beqList cs ds
  | _, _ => false

end

/-- A constant/variable record, `Constant` of parsers.py: name, optional
annotation text, and the raw source text of the right-hand expression. -/
structure Constant : Type where
  name : String
  type : Option String
  value : String
deriving DecidableEq, Repr

/-- A function record, `Function` of parsers.py. -/
structure Function : Type where
  name : String
  parameters : List String
  return_type : Option String
  docstring : Option String
  decorators : Option (List String)
deriving DecidableEq, Repr

/-- A class record, `Class` of parsers.py. -/
structure Class : Type where
  name : String
  bases : List String
  docstring : Option String
  methods : List Function
  fields : List Constant
deriving DecidableEq, Repr

/-- Remove every leading and every trailing character that belongs to the
character set `cs` from a list of characters. -/
def stripCharsEnds (cs : List Char) (l : List Char) : List Char :=
  ((l.dropWhile (fun c => cs.contains c)).reverse.dropWhile
    (fun c => cs.contains c)).reverse

/-- Python's `str.strip(chars)`: remove every leading and every trailing
character that belongs to the character set `cs` (not the literal
substring). -/
def stripCharSet (cs : List Char) (s : String) : String :=
  String.mk (stripCharsEnds cs s.toList)

/-- The docstring post-processing the source applies everywhere:
`text.strip('\x22\x22\x22').strip("\x27\x27\x27")` — strip all leading and
trailing double quotes, then all leading and trailing single quotes
(`str.strip` treats its argument as a character set). -/
def stripDocstring (s : String) : String :=
  stripCharSet [Char.ofNat 39] (stripCharSet ['"'] s)

/-
  Query matchers.

  Modelled from the spec: the QueryEngine that interprets the query strings
  is the tree-sitter runtime, which is not under src/.  Per spec section 4.2
  a pattern constrains node kinds and field bindings with optional (`?`) and
  repeated (`*`) sub-patterns; an un-anchored child pattern may match a child
  at any position; a `.` anchor after the last child pattern requires that
  child to be the last named child of its parent; quantifiers are greedy
  (one match per construct, the optional capture bound to the first possible
  child); and the matches of all alternatives of a query are unioned in
  preorder (document) order.  Each matcher below hand-compiles one query
  string of parsers.py under those semantics.
-/

/-- Capture list for `(module (expression_statement (string) @docstring))`
of `PythonParser.get_module_docstring` (parsers.py:71-75): every string
that is a named child of an expression_statement that is itself a named
child of a module node, in document order.  Note the query has no
first-statement anchor. -/
def moduleDocstringCaptures (root : Node) : List Node :=
  root.preorder.flatMap (fun m =>
    if m.kind == "module" then
      m.namedChildren.flatMap (fun st =>
        if st.kind == "expression_statement" then
          st.namedChildren.filter (fun s => s.kind == "string")
        else [])
    else [])

/-- Captures of one `assignment` node for the constant query
(parsers.py:101-108): requires field `left` to be an identifier and field
`right` to be any named node; field `type` is optional.  The record is
built exactly as in the extraction loop (parsers.py:113-119). -/
def assignmentCapture (a : Node) : Option Constant :=
  if a.kind == "assignment" then
    match a.childByField "left", a.childByField "right" with
    | some l, some r =>
      if l.kind == "identifier" && l.named && r.named then
        some { name := l.text
               type := (a.childByField "type").bind (fun ty =>
                 if ty.kind == "type" && ty.named then some ty.text else none)
               value := r.text }
      else none
    | _, _ => none
  else none

/-- Match list for the constant query
`(module (expression_statement (assignment left: (identifier) @name
type: (type)? @type right: (_) @value)))` of `PythonParser.get_constants`:
assignments whose expression_statement is a direct named child of a module
node, in document order. -/
def constantsCaptures (root : Node) : List Constant :=
  root.preorder.flatMap (fun m =>
    if m.kind == "module" then
      m.namedChildren.flatMap (fun st =>
        if st.kind == "expression_statement" then
          st.namedChildren.filterMap assignmentCapture
        else [])
    else [])

/-- The `(block (expression_statement (string) @docstring)?)` sub-pattern of
the function query: the greedy optional capture binds the first string that
is a named child of an expression_statement named child of the body block —
at any position in the block, since the query has no anchor. -/
def blockDocstringCapture (body : Node) : Option Node :=
  body.namedChildren.findSome? (fun st =>
    if st.kind == "expression_statement" then
      st.namedChildren.find? (fun s => s.kind == "string")
    else none)

/-- Match of one `function_definition` node against the function pattern of
`PythonParser.get_functions` (parsers.py:139-147) together with the record
construction of its extraction loop (parsers.py:164-179): `parameters`
iterates all children of the parameters node and drops the `,` `(` `)`
tokens; the docstring capture is stripped of quote characters; a plain
function gets `decorators = none` because the first alternative has no
`@decorator` capture. -/
def functionDefCaptures (fd : Node) : Option Function :=
  if fd.kind == "function_definition" then
    match fd.childByField "name", fd.childByField "parameters",
          fd.childByField "body" with
    | some nm, some ps, some body =>
      if nm.kind == "identifier" && nm.named && ps.kind == "parameters"
          && body.kind == "block" then
        some { name := nm.text
               parameters :=
                 ((ps.children.filter (fun p =>
                     p.kind != "," && p.kind != "(" && p.kind != ")")).map
                   (fun p => p.text))
               return_type := (fd.childByField "return_type").bind (fun ty =>
                 if ty.kind == "type" && ty.named then some ty.text else none)
               docstring := (blockDocstringCapture body).map (fun s =>
                 stripDocstring s.text)
               decorators := none }
      else none
    | _, _, _ => none
  else none

/-- The repeated `(decorator (identifier) @decorator)*` sub-pattern of the
second function alternative: the capture is the identifier child of each
decorator (a decorator whose expression is not a bare identifier is simply
not captured). -/
def decoratorIdentCaptures (dd : Node) : List Node :=
  dd.namedChildren.flatMap (fun d =>
    if d.kind == "decorator" then
      d.namedChildren.filter (fun i => i.kind == "identifier")
    else [])

/-- Match of one `decorated_definition` node against the second alternative
of the function query (parsers.py:149-158): the `definition` field must be a
function_definition matching the inner pattern; the extraction loop sets
`decorators` to the capture texts when the capture list is non-empty and to
`None` otherwise (`if "decorator" in match_node else None`). -/
def decoratedFunctionCaptures (dd : Node) : Option Function :=
  if dd.kind == "decorated_definition" then
    ((dd.childByField "definition").bind functionDefCaptures).map (fun f =>
      let decs := decoratorIdentCaptures dd
      { f with decorators :=
          if decs.isEmpty then none else some (decs.map (fun d => d.text)) })
  else none

/-- The match of one module child against the function query: the first
alternative (a plain function_definition) or the second (a
decorated_definition); a module child is never both. -/
def funcChildCapture (c : Node) : Option Function :=
  (functionDefCaptures c).orElse (fun _ => decoratedFunctionCaptures c)

/-- The function-query matches contributed by one node of the tree: a
module node contributes the matches of its named children, any other node
contributes nothing. -/
def moduleFuncContrib (m : Node) : List Function :=
  if m.kind == "module" then m.namedChildren.filterMap funcChildCapture
  else []

/-- `PythonParser.get_functions` over a tree: both query alternatives are
rooted at `(module ...)`; their matches are unioned in document order, which
for children of one module node is simply child order. -/
def functionsCaptures (root : Node) : List Function :=
  root.preorder.flatMap moduleFuncContrib

/-- A match of the class pattern of `CLASS_QUERY` (parsers.py:199-210):
the name identifier, the optional `superclasses` argument_list, and the
body block of a matched class_definition. -/
structure ClassMatch : Type where
  nameNode : Node
  basesNode : Option Node
  bodyNode : Node

/-- Match of one `class_definition` node against the first `CLASS_QUERY`
alternative: fields `name` (identifier) and `body` (block) are required,
`superclasses: (argument_list)?` is optional. -/
def classDefMatch (cd : Node) : Option ClassMatch :=
  if cd.kind == "class_definition" then
    match cd.childByField "name", cd.childByField "body" with
    | some nm, some body =>
      if nm.kind == "identifier" && nm.named && body.kind == "block" then
        some { nameNode := nm
               basesNode := (cd.childByField "superclasses").bind (fun b =>
                 if b.kind == "argument_list" && b.named then some b else none)
               bodyNode := body }
      else none
    | _, _ => none
  else none

/-- All matches of `CLASS_QUERY` over the whole tree, in document order.
Both alternatives are rooted at the matched node itself (not at `module`),
so the cursor tries them at every node of the tree; the extraction loop
(parsers.py:252-253) unwraps a decorated_definition to its `definition`
field, so both alternatives yield the same `ClassMatch` data. -/
def classMatches (root : Node) : List ClassMatch :=
  root.preorder.filterMap (fun n =>
    (classDefMatch n).orElse (fun _ =>
      if n.kind == "decorated_definition" then
        (n.childByField "definition").bind classDefMatch
      else none))

/-- The explicit first-statement docstring check the source uses for class
bodies (parsers.py:266-271) and method bodies (parsers.py:318-327): the
first named child of the body must be an expression_statement whose first
named child is a string; its text is stripped of quote characters. -/
def firstStatementDocstring (body : Node) : Option String :=
  match body.namedChild 0 with
  | some st =>
    if st.kind == "expression_statement" then
      match st.namedChild 0 with
      | some s => if s.kind == "string" then some (stripDocstring s.text)
                  else none
      | none => none
    else none
  | none => none

/-- One match of `FIELD_QUERY` (parsers.py:232-239).  `exprStmt` is the
expression_statement holding the matched assignment: by the shape of the
pattern it is the parent of the assignment, hence exactly
`field_name_node.parent.parent` — the parent of the parent of the `left`
capture — which the extraction loop compares against the class body node
(parsers.py:282). -/
structure FieldMatch : Type where
  exprStmt : Node
  leftNode : Node
  typeNode : Option Node
  rightNode : Node

/-- Captures of one assignment inside the expression_statement `st` for
`FIELD_QUERY`: `(assignment left: (_) @field.name type: (type)? @type
right: (_) @field.value)` — `left` and `right` may be any named nodes. -/
def fieldAssignmentCapture (st a : Node) : Option FieldMatch :=
  if a.kind == "assignment" then
    match a.childByField "left", a.childByField "right" with
    | some l, some r =>
      if l.named && r.named then
        some { exprStmt := st
               leftNode := l
               typeNode := (a.childByField "type").bind (fun ty =>
                 if ty.kind == "type" && ty.named then some ty else none)
               rightNode := r }
      else none
    | _, _ => none
  else none

/-- All matches of `FIELD_QUERY` (parsers.py:232-239) over the subtree
rooted at `scope`: `(block (expression_statement (assignment ...)) .)` —
the trailing anchor requires the expression_statement to be the **last**
named child of the block. -/
def fieldQueryMatches (scope : Node) : List FieldMatch :=
  scope.preorder.flatMap (fun b =>
    if b.kind == "block" then
      match b.namedChildren.getLast? with
      | some st =>
        if st.kind == "expression_statement" then
          st.namedChildren.filterMap (fieldAssignmentCapture st)
        else []
      | none => []
    else [])

/-- Match of one `function_definition` node against the inner method pattern
of `METHOD_QUERY` (parsers.py:213-228) together with the record construction
of the method extraction loop (parsers.py:300-327): `parameters` here uses
`named_children` (unlike `get_functions`); the docstring uses the explicit
first-statement check; a plain method gets `decorators = none`. -/
def methodFromDef (fd : Node) : Option Function :=
  if fd.kind == "function_definition" then
    match fd.childByField "name", fd.childByField "parameters",
          fd.childByField "body" with
    | some nm, some ps, some body =>
      if nm.kind == "identifier" && nm.named && ps.kind == "parameters"
          && body.kind == "block" then
        some { name := nm.text
               parameters := ps.namedChildren.map (fun p => p.text)
               return_type := (fd.childByField "return_type").bind (fun ty =>
                 if ty.kind == "type" && ty.named then some ty.text else none)
               docstring := firstStatementDocstring body
               decorators := none }
      else none
    | _, _, _ => none
  else none

/-- The repeated `(decorator (_) @decorator)*` sub-pattern of the second
`METHOD_QUERY` alternative: unlike the function query, the capture is the
named child of each decorator whatever its kind. -/
def decoratorAnyCaptures (dd : Node) : List Node :=
  dd.namedChildren.flatMap (fun d =>
    if d.kind == "decorator" then d.namedChildren else [])

/-- All matches of `METHOD_QUERY` over the subtree rooted at `scope`: a
function_definition (or a decorated_definition wrapping one) that is a named
child of any block in the subtree, in document order. -/
def methodQueryMatches (scope : Node) : List Function :=
  scope.preorder.flatMap (fun b =>
    if b.kind == "block" then
      b.namedChildren.filterMap (fun c =>
        (methodFromDef c).orElse (fun _ =>
          if c.kind == "decorated_definition" then
            ((c.childByField "definition").bind methodFromDef).map (fun f =>
              let decs := decoratorAnyCaptures c
              { f with decorators :=
                  if decs.isEmpty then none
                  else some (decs.map (fun d => d.text)) })
          else none))
    else [])

/-- `PythonParser.get_classes` over a tree (parsers.py:183-339).  For each
class match: bases are the named children of the superclasses node; the
docstring follows the first-statement rule; fields are the `FIELD_QUERY`
matches over the body subtree kept only when the parent of the parent of
the `left` capture — the expression_statement of the match — equals the
body node (parsers.py:282); methods are the `METHOD_QUERY` matches over
the body subtree. -/
def classesCaptures (root : Node) : List Class :=
  (classMatches root).map (fun cm =>
    { name := cm.nameNode.text
      bases := match cm.basesNode with
        | some bn => bn.namedChildren.map (fun c => c.text)
        | none => []
      docstring := firstStatementDocstring cm.bodyNode
      methods := methodQueryMatches cm.bodyNode
      fields := (fieldQueryMatches cm.bodyNode).filterMap (fun fm =>
        if Node.beq fm.exprStmt cm.bodyNode then
          some { name := fm.leftNode.text
                 value := fm.rightNode.text
                 type := fm.typeNode.map (fun ty => ty.text) }
        else none) })

/-- `PythonParser` of parsers.py: holds the tree of the last parse, `None`
before the first parse.  Getters return `Except String` to model raising
`ValueError`. -/
structure PythonParser : Type where
  tree : Option Node

/-- A freshly constructed parser: the dataclass default `tree = None`. -/
def PythonParser.new : PythonParser := { tree := none }

/-- `PythonParser.parse` (parsers.py:35-42) stores the tree produced by the
tree-sitter parser, replacing any previous tree.  Modelled from the spec:
the text→tree step is performed by the tree-sitter runtime, which is not
under src/ and per spec section 4.1 is total over arbitrary input (malformed
regions become error nodes); we therefore take the resulting tree as the
argument, quantifying over every tree the runtime may produce. -/
def PythonParser.parse (p : PythonParser) (t : Node) : PythonParser :=
  { p with tree := some t }

/-- The message of the `ValueError` every getter raises before a parse. -/
def notParsedMsg : String := "No file has been parsed yet."

/-- `PythonParser.get_tree` (parsers.py:44-56). -/
def PythonParser.get_tree (p : PythonParser) : Except String Node :=
  match p.tree with
  | none => .error notParsedMsg
  | some t => .ok t

/-- `PythonParser.get_module_docstring` (parsers.py:58-84): the loop returns
the stripped text of the first capture, or `None` when there is none. -/
def PythonParser.get_module_docstring (p : PythonParser) :
    Except String (Option String) :=
  match p.tree with
  | none => .error notParsedMsg
  | some t =>
    match moduleDocstringCaptures t with
    | [] => .ok none
    | s :: _ => .ok (some (stripDocstring s.text))

/-- `PythonParser.get_constants` (parsers.py:86-121). -/
def PythonParser.get_constants (p : PythonParser) :
    Except String (List Constant) :=
  match p.tree with
  | none => .error notParsedMsg
  | some t => .ok (constantsCaptures t)

/-- `PythonParser.get_functions` (parsers.py:123-181). -/
def PythonParser.get_functions (p : PythonParser) :
    Except String (List Function) :=
  match p.tree with
  | none => .error notParsedMsg
  | some t => .ok (functionsCaptures t)

/-- `PythonParser.get_classes` (parsers.py:183-339). -/
def PythonParser.get_classes (p : PythonParser) :
    Except String (List Class) :=
  match p.tree with
  | none => .error notParsedMsg
  | some t => .ok (classesCaptures t)

/-- Python's `name.startswith("_")` as tools.py applies it: whether the
first character is an underscore. -/
def startsWithUnderscore (s : String) : Bool :=
  match s.toList with
  | [] => false
  | c :: _ => c == '_'

namespace Tools

/-
  The entry points of tools.py.  Each one opens the file at `path`,
  constructs a fresh `PythonParser`, parses the file's contents and
  extracts.  File reading and text→tree parsing happen outside src/ (the
  OS and the tree-sitter runtime), so the file is modelled by the tree its
  contents parse to, passed as the `tree` argument.
-/

/-- The message of the `ValueError` raised for an unregistered language. -/
def unsupportedMsg (lang : String) : String := "Unsupported language: " ++ lang

/-- `get_module_docstring` of tools.py (tools.py:26-42). -/
def get_module_docstring (tree : Node) (lang : String) :
    Except String (Option String) :=
  if lang == "python" then
    (PythonParser.new.parse tree).get_module_docstring
  else .error (unsupportedMsg lang)

/-- `get_module_variables` of tools.py (tools.py:44-64): extract constants,
then drop records whose name starts with an underscore unless
`include_private` is set. -/
def get_module_variables (tree : Node) (lang : String)
    (include_private : Bool) : Except String (List Constant) :=
  if lang == "python" then do
    let constants ← (PythonParser.new.parse tree).get_constants
    if !include_private then
      pure (constants.filter (fun c => !(startsWithUnderscore c.name)))
    else
      pure constants
  else .error (unsupportedMsg lang)

/-- `get_module_functions` of tools.py (tools.py:67-87). -/
def get_module_functions (tree : Node) (lang : String)
    (include_private : Bool) : Except String (List Function) :=
  if lang == "python" then do
    let functions ← (PythonParser.new.parse tree).get_functions
    if !include_private then
      pure (functions.filter (fun f => !(startsWithUnderscore f.name)))
    else
      pure functions
  else .error (unsupportedMsg lang)

/-- `get_module_classes` of tools.py (tools.py:89-109). -/
def get_module_classes (tree : Node) (lang : String)
    (include_private : Bool) : Except String (List Class) :=
  if lang == "python" then do
    let classes ← (PythonParser.new.parse tree).get_classes
    if !include_private then
      pure (classes.filter (fun c => !(startsWithUnderscore c.name)))
    else
      pure classes
  else .error (unsupportedMsg lang)

/-- `get_file_symbols` of tools.py (tools.py:111-149): a text summary of
all symbols, built exactly as in the source and finally stripped of
surrounding whitespace. -/
def get_file_symbols (path : String) (tree : Node) (lang : String) :
    Except String String :=
  if lang == "python" then do
    let p := PythonParser.new.parse tree
    let constants ← p.get_constants
    let functions ← p.get_functions
    let classes ← p.get_classes
    let summary := "File: " ++ path ++ "\n\n"
    let summary := if !constants.isEmpty then
        (constants.foldl (fun acc c =>
          acc ++ "- " ++ c.name ++ ": " ++ c.value ++ "\n")
          (summary ++ "Module-level Variables:\n")) ++ "\n"
      else summary
    let summary := if !functions.isEmpty then
        (functions.foldl (fun acc f =>
          acc ++ "- " ++ f.name ++ "(" ++ String.intercalate ", " f.parameters
            ++ ")\n")
          (summary ++ "Module-level Functions:\n")) ++ "\n"
      else summary
    let summary := if !classes.isEmpty then
        (classes.foldl (fun acc c => acc ++ "- " ++ c.name ++ "\n")
          (summary ++ "Module-level Classes:\n")) ++ "\n"
      else summary
    pure summary.trim
  else .error (unsupportedMsg lang)

/-- `get_specific_function` of tools.py (tools.py:151-166): extract with
`include_private=True`, return the first record with the requested name,
`None` when there is none. -/
def get_specific_function (tree : Node) (lang : String)
    (function_name : String) : Except String (Option Function) := do
  let functions ← get_module_functions tree lang true
  pure (functions.find? (fun f => f.name == function_name))

/-- `get_specific_class` of tools.py (tools.py:168-183). -/
def get_specific_class (tree : Node) (lang : String) (class_name : String) :
    Except String (Option Class) := do
  let classes ← get_module_classes tree lang true
  pure (classes.find? (fun c => c.name == class_name))

/-- `get_specific_variable` of tools.py (tools.py:185-200). -/
def get_specific_variable (tree : Node) (lang : String)
    (variable_name : String) : Except String (Option Constant) := do
  let vars ← get_module_variables tree lang true
  pure (vars.find? (fun v => v.name == variable_name))

end Tools

/-
  Concrete example trees, used as inputs to the theorems below.  They are
  the concrete syntax trees the tree-sitter Python grammar produces for the
  small sources named in each comment.
-/

/-- An anonymous token node (kind is the literal text). -/
def tok (k : String) : Node := Node.node none k false k []

/-- A named leaf node. -/
def leaf (f : Option String) (k t : String) : Node := Node.node f k true t []

/-- The statement `X: int = 5` at module level. -/
def stmtAssignX : Node :=
  Node.node none "expression_statement" true "X: int = 5"
    [Node.node none "assignment" true "X: int = 5"
      [leaf (some "left") "identifier" "X", tok ":",
       Node.node (some "type") "type" true "int" [leaf none "identifier" "int"],
       tok "=", leaf (some "right") "integer" "5"]]

/-- The definition `def f():` with body `Y = 3` (an assignment nested inside
a function block, hence not a module-level constant). -/
def defWithNestedAssign : Node :=
  Node.node none "function_definition" true "def f():\n    Y = 3"
    [tok "def", leaf (some "name") "identifier" "f",
     Node.node (some "parameters") "parameters" true "()" [tok "(", tok ")"],
     tok ":",
     Node.node (some "body") "block" true "Y = 3"
       [Node.node none "expression_statement" true "Y = 3"
         [Node.node none "assignment" true "Y = 3"
           [leaf (some "left") "identifier" "Y", tok "=",
            leaf (some "right") "integer" "3"]]]]

/-- Tree of the module `X: int = 5` followed by `def f(): Y = 3`. -/
def c3Tree : Node :=
  Node.node none "module" true "X: int = 5\ndef f():\n    Y = 3"
    [stmtAssignX, defWithNestedAssign]

/-- The method `def m(self):` whose body is the single statement
`self.x = 2`. -/
def c1Method : Node :=
  Node.node none "function_definition" true "def m(self):\n        self.x = 2"
    [tok "def", leaf (some "name") "identifier" "m",
     Node.node (some "parameters") "parameters" true "(self)"
       [tok "(", leaf none "identifier" "self", tok ")"],
     tok ":",
     Node.node (some "body") "block" true "self.x = 2"
       [Node.node none "expression_statement" true "self.x = 2"
         [Node.node none "assignment" true "self.x = 2"
           [Node.node (some "left") "attribute" true "self.x"
             [leaf (some "object") "identifier" "self", tok ".",
              leaf (some "attribute") "identifier" "x"],
            tok "=", leaf (some "right") "integer" "2"]]]]

/-- Tree of the module
`class C:` / `    field = 1` / `    def m(self):` / `        self.x = 2` —
the scope-correct-fields example of the claim: `field = 1` at class-body
level, `self.x = 2` inside a method. -/
def c1Tree : Node :=
  Node.node none "module" true
    "class C:\n    field = 1\n    def m(self):\n        self.x = 2"
    [Node.node none "class_definition" true
      "class C:\n    field = 1\n    def m(self):\n        self.x = 2"
      [tok "class", leaf (some "name") "identifier" "C", tok ":",
       Node.node (some "body") "block" true
         "field = 1\n    def m(self):\n        self.x = 2"
         [Node.node none "expression_statement" true "field = 1"
           [Node.node none "assignment" true "field = 1"
             [leaf (some "left") "identifier" "field", tok "=",
              leaf (some "right") "integer" "1"]],
          c1Method]]]

/-- Tree of the module `x = 1` followed by the bare string statement
`"""late"""`: the first statement is not a string, a bare string appears
later. -/
def c2ModTree : Node :=
  Node.node none "module" true "x = 1\n\"\"\"late\"\"\""
    [Node.node none "expression_statement" true "x = 1"
      [Node.node none "assignment" true "x = 1"
        [leaf (some "left") "identifier" "x", tok "=",
         leaf (some "right") "integer" "1"]],
     Node.node none "expression_statement" true "\"\"\"late\"\"\""
       [leaf none "string" "\"\"\"late\"\"\""]]

/-- Tree of the module `def g():` / `    return 1` / `    """late"""`: the
first statement of the function body is a return, a bare string follows. -/
def c2FunTree : Node :=
  Node.node none "module" true "def g():\n    return 1\n    \"\"\"late\"\"\""
    [Node.node none "function_definition" true
      "def g():\n    return 1\n    \"\"\"late\"\"\""
      [tok "def", leaf (some "name") "identifier" "g",
       Node.node (some "parameters") "parameters" true "()" [tok "(", tok ")"],
       tok ":",
       Node.node (some "body") "block" true "return 1\n    \"\"\"late\"\"\""
         [Node.node none "return_statement" true "return 1"
           [tok "return", leaf none "integer" "1"],
          Node.node none "expression_statement" true "\"\"\"late\"\"\""
            [leaf none "string" "\"\"\"late\"\"\""]]]]

/-- A module-level `def` with the given name, parameters `(x, y)` and body
`pass`. -/
def plainDef (nm : String) : Node :=
  Node.node none "function_definition" true ("def " ++ nm ++ "(x, y):")
    [tok "def", leaf (some "name") "identifier" nm,
     Node.node (some "parameters") "parameters" true "(x, y)"
       [tok "(", leaf none "identifier" "x", tok ",",
        leaf none "identifier" "y", tok ")"],
     tok ":",
     Node.node (some "body") "block" true "pass"
       [leaf none "pass_statement" "pass"]]

/-- Tree of the module defining `add`, `sub`, `mul` in that order, with
`sub` decorated by `@dec` and the other two plain. -/
def c8Tree : Node :=
  Node.node none "module" true "def add... @dec def sub... def mul..."
    [plainDef "add",
     Node.node none "decorated_definition" true "@dec\ndef sub(x, y):"
       [Node.node none "decorator" true "@dec"
         [tok "@", leaf none "identifier" "dec"],
        Node.node (some "definition") "function_definition" true
          "def sub(x, y):"
          [tok "def", leaf (some "name") "identifier" "sub",
           Node.node (some "parameters") "parameters" true "(x, y)"
             [tok "(", leaf none "identifier" "x", tok ",",
              leaf none "identifier" "y", tok ")"],
           tok ":",
           Node.node (some "body") "block" true "pass"
             [leaf none "pass_statement" "pass"]]],
     plainDef "mul"]

/-- Tree of the module `def q():` / `    "'quoted'"` — a function whose
docstring is the double-quoted string literal `"'quoted'"`, whose interior
`'quoted'` begins and ends with a single quote. -/
def c9Tree : Node :=
  Node.node none "module" true "def q():\n    \"'quoted'\""
    [Node.node none "function_definition" true "def q():\n    \"'quoted'\""
      [tok "def", leaf (some "name") "identifier" "q",
       Node.node (some "parameters") "parameters" true "()" [tok "(", tok ")"],
       tok ":",
       Node.node (some "body") "block" true "\"'quoted'\""
         [Node.node none "expression_statement" true "\"'quoted'\""
           [leaf none "string" "\"'quoted'\""]]]]

/-- Tree of a module whose first construct is malformed (`def broken(`,
an error node in the concrete syntax tree) followed by the well-formed
`def ok(x, y): pass`. -/
def c7Tree : Node :=
  Node.node none "module" true "def broken(\ndef ok(x, y):\n    pass"
    [Node.node none "ERROR" true "def broken(" [tok "def", tok "("],
     plainDef "ok"]

/-- Tree of the module defining `_hidden` and then `pub`. -/
def c10Tree : Node :=
  Node.node none "module" true "def _hidden(x, y): ...\ndef pub(x, y): ..."
    [plainDef "_hidden", plainDef "pub"]

/-- Tree of the module `_hidden = 1` followed by `public = 2`. -/
def c6Tree : Node :=
  Node.node none "module" true "_hidden = 1\npublic = 2"
    [Node.node none "expression_statement" true "_hidden = 1"
      [Node.node none "assignment" true "_hidden = 1"
        [leaf (some "left") "identifier" "_hidden", tok "=",
         leaf (some "right") "integer" "1"]],
     Node.node none "expression_statement" true "public = 2"
       [Node.node none "assignment" true "public = 2"
         [leaf (some "left") "identifier" "public", tok "=",
          leaf (some "right") "integer" "2"]]]

/-- The record `get_functions` produces for `plainDef nm`. -/
def plainDefRecord (nm : String) : Function :=
  { name := nm
    parameters := ["x", "y"]
    return_type := none
    docstring := none
    decorators := none }

/-
  Supporting lemmas.
-/

/-- After a parse, `get_module_docstring` returns the stripped text of the
first capture (or `none`), never the not-parsed error. -/
theorem parse_docstring_ok (p : PythonParser) (t : Node) :
    (p.parse t).get_module_docstring
      = Except.ok ((moduleDocstringCaptures t).head?.map (fun s =>
          stripDocstring s.text)) := by
  cases h : moduleDocstringCaptures t <;>
    simp [PythonParser.get_module_docstring, PythonParser.parse, h]

/-
  Claim theorems.
-/

/-- C4: on a freshly constructed parser, every operation other than `parse`
(`get_tree`, `get_module_docstring`, `get_constants`, `get_functions`,
`get_classes`) fails with the not-parsed error; after any `parse` call each
of them returns a result instead. -/
theorem c4_not_parsed_guard :
    (PythonParser.new.get_tree = Except.error notParsedMsg
      ∧ PythonParser.new.get_module_docstring = Except.error notParsedMsg
      ∧ PythonParser.new.get_constants = Except.error notParsedMsg
      ∧ PythonParser.new.get_functions = Except.error notParsedMsg
      ∧ PythonParser.new.get_classes = Except.error notParsedMsg)
    ∧ ∀ (p : PythonParser) (t : Node),
      (p.parse t).get_tree = Except.ok t
      ∧ (p.parse t).get_module_docstring
          = Except.ok ((moduleDocstringCaptures t).head?.map (fun s =>
              stripDocstring s.text))
      ∧ (p.parse t).get_constants = Except.ok (constantsCaptures t)
      ∧ (p.parse t).get_functions = Except.ok (functionsCaptures t)
      ∧ (p.parse t).get_classes = Except.ok (classesCaptures t) := by
  refine ⟨⟨rfl, rfl, rfl, rfl, rfl⟩, fun p t =>
    ⟨rfl, parse_docstring_ok p t, rfl, rfl, rfl⟩⟩

/-- C5: for every language tag other than `"python"`, each extraction entry
point of tools.py fails with the unsupported-language error, whatever the
input file holds (the result does not depend on the tree at all, so the
failure precedes any parsing attempt). -/
theorem c5_unsupported_language (tree : Node) (lang : String) (ip : Bool)
    (path : String) (h : lang ≠ "python") :
    Tools.get_module_docstring tree lang
        = Except.error (Tools.unsupportedMsg lang)
    ∧ Tools.get_module_variables tree lang ip
        = Except.error (Tools.unsupportedMsg lang)
    ∧ Tools.get_module_functions tree lang ip
        = Except.error (Tools.unsupportedMsg lang)
    ∧ Tools.get_module_classes tree lang ip
        = Except.error (Tools.unsupportedMsg lang)
    ∧ Tools.get_file_symbols path tree lang
        = Except.error (Tools.unsupportedMsg lang) := by
  have hb : (lang == "python") = false := beq_eq_false_iff_ne.mpr h
  refine ⟨?_, ?_, ?_, ?_, ?_⟩ <;>
    simp [Tools.get_module_docstring, Tools.get_module_variables,
      Tools.get_module_functions, Tools.get_module_classes,
      Tools.get_file_symbols, hb]

/-- Witness for C5 at the concrete tag `"typescript"`. -/
theorem c5_unsupported_language_witness :
    Tools.get_module_docstring c3Tree "typescript"
        = Except.error (Tools.unsupportedMsg "typescript")
    ∧ Tools.get_module_variables c3Tree "typescript" true
        = Except.error (Tools.unsupportedMsg "typescript")
    ∧ Tools.get_module_functions c3Tree "typescript" true
        = Except.error (Tools.unsupportedMsg "typescript")
    ∧ Tools.get_module_classes c3Tree "typescript" true
        = Except.error (Tools.unsupportedMsg "typescript")
    ∧ Tools.get_file_symbols "lib.py" c3Tree "typescript"
        = Except.error (Tools.unsupportedMsg "typescript") :=
  c5_unsupported_language c3Tree "typescript" true "lib.py" (by decide)

/-- C6: with `include_private = false` every entry point taking the flag
returns exactly the extracted records whose name does not start with an
underscore, in order (a post-filter on the full extraction); with
`include_private = true` it returns all extracted records; and on the
module `_hidden = 1` / `public = 2` the two calls return `[public]` and
`[_hidden, public]` respectively. -/
theorem c6_visibility_filter :
    (∀ (tree : Node),
      Tools.get_module_variables tree "python" false
        = Except.ok ((constantsCaptures tree).filter (fun c =>
            !(startsWithUnderscore c.name)))
      ∧ Tools.get_module_variables tree "python" true
          = Except.ok (constantsCaptures tree)
      ∧ Tools.get_module_functions tree "python" false
          = Except.ok ((functionsCaptures tree).filter (fun f =>
              !(startsWithUnderscore f.name)))
      ∧ Tools.get_module_functions tree "python" true
          = Except.ok (functionsCaptures tree)
      ∧ Tools.get_module_classes tree "python" false
          = Except.ok ((classesCaptures tree).filter (fun c =>
              !(startsWithUnderscore c.name)))
      ∧ Tools.get_module_classes tree "python" true
          = Except.ok (classesCaptures tree))
    ∧ Tools.get_module_variables c6Tree "python" false
        = Except.ok [{ name := "public", type := none, value := "2" }]
    ∧ Tools.get_module_variables c6Tree "python" true
        = Except.ok [{ name := "_hidden", type := none, value := "1" },
                     { name := "public", type := none, value := "2" }] :=
  ⟨fun _ => ⟨rfl, rfl, rfl, rfl, rfl, rfl⟩, by rfl, by rfl⟩

/-- C7: `parse` succeeds on every tree the runtime produces (storing it),
and afterwards every extraction call returns a list (or an optional
docstring), never an error; on a module whose first construct is malformed
(an error node) the extraction simply omits the broken construct and
returns the records of the well-formed rest. -/
theorem c7_parse_total :
    (∀ (p : PythonParser) (t : Node),
      (p.parse t).tree = some t
      ∧ (∃ d, (p.parse t).get_module_docstring = Except.ok d)
      ∧ (∃ cs, (p.parse t).get_constants = Except.ok cs)
      ∧ (∃ fs, (p.parse t).get_functions = Except.ok fs)
      ∧ (∃ ks, (p.parse t).get_classes = Except.ok ks))
    ∧ functionsCaptures c7Tree = [plainDefRecord "ok"] :=
  ⟨fun p t => ⟨rfl, ⟨_, parse_docstring_ok p t⟩, ⟨_, rfl⟩, ⟨_, rfl⟩, ⟨_, rfl⟩⟩,
    by decide⟩

/-- C10: each specific-symbol lookup searches the full extraction with
private symbols included and returns the first record whose name equals the
requested name exactly, or `none` when there is no such record; in
particular the underscore-named `_hidden` is found even though the default
visibility filter would hide it, and an absent name yields `none`, not an
error. -/
theorem c10_specific_lookup :
    (∀ (tree : Node) (nm : String),
      Tools.get_specific_function tree "python" nm
        = Except.ok ((functionsCaptures tree).find? (fun f => f.name == nm))
      ∧ Tools.get_specific_class tree "python" nm
        = Except.ok ((classesCaptures tree).find? (fun c => c.name == nm))
      ∧ Tools.get_specific_variable tree "python" nm
        = Except.ok ((constantsCaptures tree).find? (fun v => v.name == nm)))
    ∧ Tools.get_specific_function c10Tree "python" "_hidden"
        = Except.ok (some (plainDefRecord "_hidden"))
    ∧ Tools.get_module_functions c10Tree "python" false
        = Except.ok [plainDefRecord "pub"]
    ∧ Tools.get_specific_function c10Tree "python" "absent" = Except.ok none
    ∧ Tools.get_specific_variable c10Tree "python" "absent" = Except.ok none
    ∧ Tools.get_specific_class c10Tree "python" "absent" = Except.ok none :=
  ⟨fun _ _ => ⟨rfl, rfl, rfl⟩, by rfl, by rfl, by rfl, by rfl, by rfl⟩

/-- C3: on `X: int = 5` (with a nested `Y = 3` inside a function body),
`get_constants` returns exactly the `X` record with the annotation text as
type and the raw right-hand text as value; and in general every returned
record comes from an assignment whose expression_statement is a direct
named child of a module node — an assignment nested inside any block
produces no record. -/
theorem c3_constant_capture :
    constantsCaptures c3Tree
      = [{ name := "X", type := some "int", value := "5" }]
    ∧ ∀ (t : Node) (c : Constant), c ∈ constantsCaptures t →
        ∃ m st a, m ∈ t.preorder ∧ m.kind = "module"
          ∧ st ∈ m.namedChildren ∧ st.kind = "expression_statement"
          ∧ a ∈ st.namedChildren ∧ assignmentCapture a = some c := by
  refine ⟨by decide, ?_⟩
  intro t c h
  simp only [constantsCaptures, List.mem_flatMap] at h
  obtain ⟨m, hm, hc⟩ := h
  by_cases hk : (m.kind == "module") = true
  · rw [if_pos hk] at hc
    simp only [List.mem_flatMap] at hc
    obtain ⟨st, hst, hc⟩ := hc
    by_cases hk2 : (st.kind == "expression_statement") = true
    · rw [if_pos hk2] at hc
      simp only [List.mem_filterMap] at hc
      obtain ⟨a, ha, hcap⟩ := hc
      exact ⟨m, st, a, hm, eq_of_beq hk, hst, eq_of_beq hk2, ha, hcap⟩
    · rw [if_neg hk2] at hc
      simp at hc
  · rw [if_neg hk] at hc
    simp at hc

/-- Witness for C3 at the concrete record extracted from `X: int = 5`. -/
theorem c3_constant_capture_witness :
    ∃ m st a, m ∈ c3Tree.preorder ∧ m.kind = "module"
      ∧ st ∈ m.namedChildren ∧ st.kind = "expression_statement"
      ∧ a ∈ st.namedChildren
      ∧ assignmentCapture a
          = some { name := "X", type := some "int", value := "5" } :=
  c3_constant_capture.2 c3Tree
    { name := "X", type := some "int", value := "5" } (by decide)

/-- Structurally equal nodes have equal kinds. -/
theorem Node.beq_kind_eq {a b : Node} (h : Node.beq a b = true) :
    a.kind = b.kind := by
  cases a with
  | mk f k nm t cs =>
    cases b with
    | mk f2 k2 nm2 t2 cs2 =>
      simp only [Node.beq, Bool.and_eq_true] at h
      obtain ⟨⟨⟨⟨_, hk⟩, _⟩, _⟩, _⟩ := h
      simpa [Node.kind] using eq_of_beq hk

/-- A field-query capture records as `exprStmt` exactly the
expression_statement it was matched under. -/
theorem fieldAssignmentCapture_exprStmt {st a : Node} {fm : FieldMatch}
    (h : fieldAssignmentCapture st a = some fm) : fm.exprStmt = st := by
  unfold fieldAssignmentCapture at h
  split at h
  · split at h
    · split at h
      · cases h
        rfl
      · exact absurd h (by simp)
    · exact absurd h (by simp)
  · exact absurd h (by simp)

/-- Every `FIELD_QUERY` match is recorded under an expression_statement:
the parent of the parent of the `left` capture has kind
expression_statement, never block. -/
theorem fieldQueryMatches_exprStmt_kind {scope : Node} {fm : FieldMatch}
    (h : fm ∈ fieldQueryMatches scope) :
    fm.exprStmt.kind = "expression_statement" := by
  simp only [fieldQueryMatches, List.mem_flatMap] at h
  obtain ⟨b, _, hfm⟩ := h
  split at hfm
  · split at hfm
    · split at hfm
      case isTrue st _ hst =>
        simp only [List.mem_filterMap] at hfm
        obtain ⟨a, _, hcap⟩ := hfm
        rw [fieldAssignmentCapture_exprStmt hcap]
        exact eq_of_beq hst
      case isFalse => simp at hfm
    · simp at hfm
  · simp at hfm

/-- The body node of a class-query match has kind block. -/
theorem classDefMatch_body_kind {cd : Node} {cm : ClassMatch}
    (h : classDefMatch cd = some cm) : cm.bodyNode.kind = "block" := by
  unfold classDefMatch at h
  split at h
  · split at h
    · split at h
      case isTrue hcond =>
        cases h
        simp only [Bool.and_eq_true] at hcond
        exact eq_of_beq hcond.2
      case isFalse => exact absurd h (by simp)
    · exact absurd h (by simp)
  · exact absurd h (by simp)

/-- The body node of every match of `CLASS_QUERY` has kind block. -/
theorem classMatches_body_kind {root : Node} {cm : ClassMatch}
    (h : cm ∈ classMatches root) : cm.bodyNode.kind = "block" := by
  simp only [classMatches, List.mem_filterMap] at h
  obtain ⟨n, _, hsome⟩ := h
  cases hcd : classDefMatch n with
  | some cm2 =>
    rw [hcd] at hsome
    simp only [Option.orElse] at hsome
    cases hsome
    exact classDefMatch_body_kind hcd
  | none =>
    rw [hcd] at hsome
    simp only [Option.orElse] at hsome
    by_cases hk : (n.kind == "decorated_definition") = true
    · rw [if_pos hk] at hsome
      obtain ⟨d, _, hd2⟩ := Option.bind_eq_some.mp hsome
      exact classDefMatch_body_kind hd2
    · rw [if_neg hk] at hsome
      exact absurd hsome (by simp)

/-- The filter at parsers.py:282 compares the expression_statement of each
field match against the class body block; their kinds always differ, so the
fields list of every reported class is empty, for every input tree. -/
theorem classesCaptures_fields_nil (root : Node) :
    ∀ c ∈ classesCaptures root, c.fields = [] := by
  intro c hc
  simp only [classesCaptures, List.mem_map] at hc
  obtain ⟨cm, hcm, rfl⟩ := hc
  rw [show (Class.fields _) = (fieldQueryMatches cm.bodyNode).filterMap _
      from rfl]
  rw [List.filterMap_eq_nil_iff]
  intro fm hfm
  have h1 := fieldQueryMatches_exprStmt_kind hfm
  have h2 := classMatches_body_kind hcm
  have hb : ¬ (Node.beq fm.exprStmt cm.bodyNode = true) := by
    intro hbeq
    have h3 := Node.beq_kind_eq hbeq
    rw [h1, h2] at h3
    exact absurd h3 (by decide)
  rw [if_neg hb]

/-- The method record extracted for `def m(self)` of the C1 example. -/
def c1MethodRecord : Function :=
  { name := "m"
    parameters := ["self"]
    return_type := none
    docstring := none
    decorators := none }

/-- C1: on the claim's own example — `field = 1` at class-body level and
`self.x = 2` inside a method — `get_classes` reports an **empty** fields
list: not only is `x` excluded, `field` is missing as well, because the
guard `field_name_node.parent.parent == body_node` (parsers.py:282)
compares the expression_statement of the match against the body block and
can never hold (see `classesCaptures_fields_nil`). -/
theorem c1_class_fields_empty :
    classesCaptures c1Tree
      = [{ name := "C"
           bases := []
           docstring := none
           methods := [c1MethodRecord]
           fields := [] }] := by decide

/-- The record `get_functions` produces for `def g` of the C2 example. -/
def c2FunRecord : Function :=
  { name := "g"
    parameters := []
    return_type := none
    docstring := some "late"
    decorators := none }

/-- C2: the docstring queries have no first-statement anchor, so a bare
string expression anywhere among the direct statements of the body is
reported.  On a module whose first statement is `x = 1` (an assignment,
not a string) followed by the bare string `"""late"""`,
`get_module_docstring` reports `late`; and on a function whose body is
`return 1` followed by `"""late"""`, `get_functions` reports the docstring
`late` — where the claim requires the docstring to be absent in both. -/
theorem c2_docstring_not_first_statement :
    (PythonParser.new.parse c2ModTree).get_module_docstring
        = Except.ok (some "late")
    ∧ ((c2ModTree.namedChild 0).bind (fun st => st.namedChild 0)).map
        Node.kind = some "assignment"
    ∧ functionsCaptures c2FunTree = [c2FunRecord]
    ∧ (((c2FunTree.namedChild 0).bind (fun fd =>
          fd.childByField "body")).bind (fun b => b.namedChild 0)).map
        Node.kind = some "return_statement" := by
  refine ⟨by rfl, by decide, by decide, by decide⟩

/-
  List lemmas for the docstring delimiter-stripping analysis (C9).
-/

/-- Dropping a satisfying prefix block first. -/
theorem dropWhile_append_of_all {α : Type} (p : α → Bool) (pre l : List α)
    (h : ∀ x ∈ pre, p x = true) :
    (pre ++ l).dropWhile p = l.dropWhile p := by
  induction pre with
  | nil => simp
  | cons x xs ih =>
    rw [List.cons_append, List.dropWhile_cons, h x (by simp)]
    exact ih (fun y hy => h y (by simp [hy]))

/-- `dropWhile` keeps a list whose head fails the predicate. -/
theorem dropWhile_eq_self_of_head {α : Type} (p : α → Bool) (l : List α)
    (h : ∀ x, l.head? = some x → p x = false) : l.dropWhile p = l := by
  cases l with
  | nil => rfl
  | cons x xs => rw [List.dropWhile_cons, h x rfl]; simp

/-- `dropWhile` empties a list every element of which satisfies the
predicate. -/
theorem dropWhile_eq_nil_of_all {α : Type} (p : α → Bool) (l : List α)
    (h : ∀ x ∈ l, p x = true) : l.dropWhile p = [] := by
  induction l with
  | nil => rfl
  | cons x xs ih =>
    rw [List.dropWhile_cons, h x (by simp)]
    exact ih (fun y hy => h y (by simp [hy]))

/-- Stripping a character-set sandwich: when every character of `pre` and
`post` belongs to the set and the enclosed text neither begins nor ends
with a set character, exactly `pre` and `post` are removed. -/
theorem stripCharsEnds_sandwich (cs pre post l : List Char)
    (hpre : ∀ x ∈ pre, cs.contains x = true)
    (hpost : ∀ x ∈ post, cs.contains x = true)
    (hh : ∀ x, l.head? = some x → cs.contains x = false)
    (hl : ∀ x, l.getLast? = some x → cs.contains x = false) :
    stripCharsEnds cs (pre ++ l ++ post) = l := by
  unfold stripCharsEnds
  rw [List.append_assoc, dropWhile_append_of_all _ pre _ hpre]
  cases l with
  | nil =>
    simp only [List.nil_append]
    rw [dropWhile_eq_nil_of_all _ post hpost]
    rfl
  | cons x xs =>
    rw [List.cons_append, List.dropWhile_cons, hh x rfl]
    simp only [Bool.false_eq_true, if_false]
    rw [← List.cons_append, List.reverse_append,
      dropWhile_append_of_all _ post.reverse _
        (fun y hy => hpost y (List.mem_reverse.mp hy)),
      dropWhile_eq_self_of_head _ _
        (fun y hy => hl y (by rwa [List.head?_reverse] at hy)),
      List.reverse_reverse]

/-- Stripping is the identity on a list whose ends are outside the
character set. -/
theorem stripCharsEnds_id (cs l : List Char)
    (hh : ∀ x, l.head? = some x → cs.contains x = false)
    (hl : ∀ x, l.getLast? = some x → cs.contains x = false) :
    stripCharsEnds cs l = l := by
  have h := stripCharsEnds_sandwich cs [] [] l (by simp) (by simp) hh hl
  simpa using h

/-- The three-single-quote delimiter as a string. -/
def tripleSingleQuote : String :=
  String.mk [Char.ofNat 39, Char.ofNat 39, Char.ofNat 39]

/-- C9 (amended): the reported docstring text is the raw source text with
every leading and trailing `"` removed and then every leading and trailing
single quote removed (`str.strip` character-set semantics).  Whenever the
interior of the literal neither begins nor ends with a quote character,
this coincides with stripping exactly the triple-quote delimiters and
returning the interior verbatim, for both delimiter styles. -/
theorem c9_delimiter_strip (s : String)
    (hh1 : s.toList.head? ≠ some '"')
    (hh2 : s.toList.head? ≠ some (Char.ofNat 39))
    (hl1 : s.toList.getLast? ≠ some '"')
    (hl2 : s.toList.getLast? ≠ some (Char.ofNat 39)) :
    stripDocstring ("\"\"\"" ++ s ++ "\"\"\"") = s
    ∧ stripDocstring (tripleSingleQuote ++ s ++ tripleSingleQuote) = s := by
  have hhd : ∀ x, s.toList.head? = some x → (['"'].contains x) = false := by
    intro x hx
    have hne : x ≠ '"' := fun he => hh1 (he ▸ hx)
    simp [hne]
  have hhq : ∀ x, s.toList.head? = some x →
      (([Char.ofNat 39].contains x) = false) := by
    intro x hx
    have hne : x ≠ Char.ofNat 39 := fun he => hh2 (he ▸ hx)
    simp [hne]
  have hld : ∀ x, s.toList.getLast? = some x → (['"'].contains x) = false := by
    intro x hx
    have hne : x ≠ '"' := fun he => hl1 (he ▸ hx)
    simp [hne]
  have hlq : ∀ x, s.toList.getLast? = some x →
      (([Char.ofNat 39].contains x) = false) := by
    intro x hx
    have hne : x ≠ Char.ofNat 39 := fun he => hl2 (he ▸ hx)
    simp [hne]
  constructor
  · have e1 : stripCharSet ['"'] ("\"\"\"" ++ s ++ "\"\"\"")
        = String.mk s.toList := by
      unfold stripCharSet
      rw [show ("\"\"\"" ++ s ++ "\"\"\"").toList
          = ['"', '"', '"'] ++ s.toList ++ ['"', '"', '"'] from rfl]
      rw [stripCharsEnds_sandwich _ _ _ _ (by decide) (by decide) hhd hld]
    show stripCharSet [Char.ofNat 39] (stripCharSet ['"'] _) = s
    rw [e1]
    unfold stripCharSet
    rw [show (String.mk s.toList).toList = s.toList from rfl,
      stripCharsEnds_id _ _ hhq hlq]
    rfl
  · have e1 : stripCharSet ['"'] (tripleSingleQuote ++ s ++ tripleSingleQuote)
        = String.mk ([Char.ofNat 39, Char.ofNat 39, Char.ofNat 39]
            ++ s.toList ++ [Char.ofNat 39, Char.ofNat 39, Char.ofNat 39]) := by
      unfold stripCharSet
      rw [show (tripleSingleQuote ++ s ++ tripleSingleQuote).toList
          = [Char.ofNat 39, Char.ofNat 39, Char.ofNat 39] ++ s.toList
            ++ [Char.ofNat 39, Char.ofNat 39, Char.ofNat 39] from rfl]
      rw [stripCharsEnds_id]
      · intro x hx
        rw [show ((([Char.ofNat 39, Char.ofNat 39, Char.ofNat 39] ++ s.toList)
            ++ [Char.ofNat 39, Char.ofNat 39, Char.ofNat 39]).head?
              = some (Char.ofNat 39)) from rfl] at hx
        cases hx
        decide
      · intro x hx
        rw [← List.head?_reverse, List.reverse_append] at hx
        rw [show (([Char.ofNat 39, Char.ofNat 39, Char.ofNat 39].reverse
            ++ ([Char.ofNat 39, Char.ofNat 39, Char.ofNat 39]
              ++ s.toList).reverse).head? = some (Char.ofNat 39)) from rfl]
          at hx
        cases hx
        decide
    show stripCharSet [Char.ofNat 39] (stripCharSet ['"'] _) = s
    rw [e1]
    unfold stripCharSet
    rw [show (String.mk ([Char.ofNat 39, Char.ofNat 39, Char.ofNat 39]
        ++ s.toList ++ [Char.ofNat 39, Char.ofNat 39, Char.ofNat 39])).toList
          = [Char.ofNat 39, Char.ofNat 39, Char.ofNat 39] ++ s.toList
            ++ [Char.ofNat 39, Char.ofNat 39, Char.ofNat 39] from rfl]
    rw [stripCharsEnds_sandwich _ _ _ _ (by decide) (by decide) hhq hlq]
    rfl

/-- Witness for C9 at the spec's own example interior `Add.`. -/
theorem c9_delimiter_strip_witness :
    stripDocstring ("\"\"\"" ++ "Add." ++ "\"\"\"") = "Add."
    ∧ stripDocstring (tripleSingleQuote ++ "Add." ++ tripleSingleQuote)
        = "Add." :=
  c9_delimiter_strip "Add." (by decide) (by decide) (by decide) (by decide)

/-- The record `get_functions` produces for `def q` of the C9 example. -/
def c9FunRecord : Function :=
  { name := "q"
    parameters := []
    return_type := none
    docstring := some "quoted"
    decorators := none }

/-- C9 (counterexample): for the docstring of raw form `"'quoted'"` the
delimiters are the single `"` on each side, so the claim requires the
report `'quoted'`; the code reports `quoted` — the interior's own quote
characters are stripped as well. -/
theorem c9_strip_counterexample :
    functionsCaptures c9Tree = [c9FunRecord]
    ∧ stripDocstring "\"'quoted'\"" = "quoted"
    ∧ ("quoted" : String) ≠ "'quoted'" :=
  ⟨by decide, by decide, by decide⟩

/-
  Order preservation across the two function-query alternatives (C8).
-/

/-- Re-tag the field name under which a node sits. -/
def Node.withFieldName (n : Node) (f : String) : Node :=
  match n with
  | .mk _ k nm t cs => .mk (some f) k nm t cs

/-- The decorator node `@nm`. -/
def mkDecoratorNode (nm : String) : Node :=
  Node.node none "decorator" true ("@" ++ nm)
    [tok "@", leaf none "identifier" nm]

/-- Wrap a definition node in a decorated_definition carrying the named
decorators, as the concrete syntax tree represents `@d₁ … @dₙ` above a
definition. -/
def mkDecorated (ds : List String) (fd : Node) : Node :=
  Node.node none "decorated_definition" true fd.text
    (ds.map mkDecoratorNode ++ [fd.withFieldName "definition"])

/-- Converting a list to children and back is the identity. -/
theorem NodeChildren.toList_ofList (l : List Node) :
    (NodeChildren.ofList l).toList = l := by
  induction l with
  | nil => rfl
  | cons n ns ih => simp [NodeChildren.ofList, NodeChildren.toList, ih]

/-- Preorder of a converted child list is the concatenation of the
children's preorders. -/
theorem NodeChildren.preorderList_ofList (l : List Node) :
    (NodeChildren.ofList l).preorderList = l.flatMap Node.preorder := by
  induction l with
  | nil => rfl
  | cons n ns ih =>
    simp [NodeChildren.ofList, NodeChildren.preorderList, ih]

/-- Collecting the function matches over a forest of subtrees. -/
theorem flatMap_preorder_contrib (l : List Node) :
    (l.flatMap Node.preorder).flatMap moduleFuncContrib
      = l.flatMap functionsCaptures := by
  induction l with
  | nil => rfl
  | cons n ns ih =>
    simp only [List.flatMap_cons, List.flatMap_append, ih]
    rfl

/-- Unfolding `functionsCaptures` one level: the root's own contribution
followed by the contributions of the children's subtrees. -/
theorem functionsCaptures_node (f : Option String) (k : String) (nm : Bool)
    (t : String) (cs : List Node) :
    functionsCaptures (Node.node f k nm t cs)
      = moduleFuncContrib (Node.node f k nm t cs)
          ++ cs.flatMap functionsCaptures := by
  unfold functionsCaptures
  rw [show (Node.node f k nm t cs).preorder
      = Node.node f k nm t cs :: (NodeChildren.ofList cs).preorderList
        from rfl]
  rw [List.flatMap_cons, NodeChildren.preorderList_ofList,
    flatMap_preorder_contrib]
  rfl

/-- The field-name tag of a node does not affect function extraction from
its subtree. -/
theorem functionsCaptures_withFieldName (fd : Node) (f : String) :
    functionsCaptures (fd.withFieldName f) = functionsCaptures fd := by
  cases fd with
  | mk f0 k nm t cs => rfl

/-- A non-module node contributes no function match of its own. -/
theorem moduleFuncContrib_eq_nil {n : Node} (h : n.kind ≠ "module") :
    moduleFuncContrib n = [] := by
  unfold moduleFuncContrib
  rw [if_neg (fun hb => h (eq_of_beq hb))]

/-- A decorator subtree contributes no function match. -/
theorem functionsCaptures_decorator (nm : String) :
    functionsCaptures (mkDecoratorNode nm) = [] := rfl

/-- Wrapping a definition in decorators does not change the function
matches contributed by the subtree below the module level. -/
theorem functionsCaptures_mkDecorated (ds : List String) (fd : Node) :
    functionsCaptures (mkDecorated ds fd) = functionsCaptures fd := by
  unfold mkDecorated
  rw [functionsCaptures_node,
    moduleFuncContrib_eq_nil (n := Node.node none "decorated_definition"
      true fd.text (ds.map mkDecoratorNode ++ [fd.withFieldName "definition"]))
      (show ("decorated_definition" : String) ≠ "module" from by decide),
    List.flatMap_append]
  rw [show (ds.map mkDecoratorNode).flatMap functionsCaptures = [] from ?_]
  · simp only [List.nil_append, List.flatMap_cons, List.flatMap_nil,
      List.append_nil]
    exact functionsCaptures_withFieldName fd "definition"
  · rw [List.flatMap_eq_nil_iff]
    intro x hx
    obtain ⟨nm, _, rfl⟩ := List.mem_map.mp hx
    exact functionsCaptures_decorator nm

/-- The `definition` field of the decorated wrapper is the wrapped node. -/
theorem childByField_mkDecorated (ds : List String) (fd : Node) :
    (mkDecorated ds fd).childByField "definition"
      = some (fd.withFieldName "definition") := by
  unfold mkDecorated Node.childByField
  rw [show (Node.node none "decorated_definition" true fd.text
      (ds.map mkDecoratorNode ++ [fd.withFieldName "definition"])).children
        = ds.map mkDecoratorNode ++ [fd.withFieldName "definition"]
        from NodeChildren.toList_ofList _]
  rw [List.find?_append]
  rw [show (ds.map mkDecoratorNode).find?
      (fun c => c.fieldName == some "definition") = none from ?_]
  · cases fd with
    | mk f0 k nm t cs => rfl
  · rw [List.find?_eq_none]
    intro x hx
    obtain ⟨nm, _, rfl⟩ := List.mem_map.mp hx
    exact show ¬((none : Option String) == some "definition") = true from
      by decide

/-- The field-name tag does not affect the plain function-pattern match. -/
theorem functionDefCaptures_withFieldName (fd : Node) (f : String) :
    functionDefCaptures (fd.withFieldName f) = functionDefCaptures fd := by
  cases fd with
  | mk f0 k nm t cs => rfl

/-- Wrapping a function definition in decorators changes only its
`decorators` field: the name of the match (and whether there is one) is
unchanged. -/
theorem funcChildCapture_mkDecorated_name (ds : List String) (fd : Node)
    (hfd : fd.kind = "function_definition") :
    (funcChildCapture (mkDecorated ds fd)).map Function.name
      = (funcChildCapture fd).map Function.name := by
  have hdd : decoratedFunctionCaptures fd = none := by
    unfold decoratedFunctionCaptures
    rw [if_neg (fun hb => absurd (hfd ▸ eq_of_beq hb) (by decide))]
  have hfdd : functionDefCaptures (mkDecorated ds fd) = none := by
    unfold functionDefCaptures
    rw [show (mkDecorated ds fd).kind = "decorated_definition" from rfl,
      if_neg (show ¬(("decorated_definition" : String)
        == "function_definition") = true from by decide)]
  unfold funcChildCapture
  rw [hfdd, hdd]
  rw [show (Option.orElse none (fun _ =>
      decoratedFunctionCaptures (mkDecorated ds fd)))
        = decoratedFunctionCaptures (mkDecorated ds fd) from rfl]
  rw [show (Option.orElse (functionDefCaptures fd) (fun _ => none))
      = functionDefCaptures fd from by cases functionDefCaptures fd <;> rfl]
  unfold decoratedFunctionCaptures
  rw [show (mkDecorated ds fd).kind = "decorated_definition" from rfl,
    if_pos (show (("decorated_definition" : String)
      == "decorated_definition") = true from by decide),
    childByField_mkDecorated]
  rw [show (some (fd.withFieldName "definition")).bind functionDefCaptures
    = functionDefCaptures (fd.withFieldName "definition") from rfl]
  rw [functionDefCaptures_withFieldName]
  cases functionDefCaptures fd with
  | none => rfl
  | some g => rfl

/-- The contribution of a module node built from a child list. -/
theorem moduleFuncContrib_module (txt : String) (cs : List Node) :
    moduleFuncContrib (Node.node none "module" true txt cs)
      = (cs.filter (fun c => c.named)).filterMap funcChildCapture := by
  unfold moduleFuncContrib
  rw [show (Node.node none "module" true txt cs).kind = "module" from rfl,
    if_pos (show (("module" : String) == "module") = true from by decide)]
  rw [show (Node.node none "module" true txt cs).namedChildren
      = cs.filter (fun c => c.named) from by
    unfold Node.namedChildren
    rw [show (Node.node none "module" true txt cs).children = cs from
      NodeChildren.toList_ofList cs]]

/-- The record `get_functions` produces for the decorated `sub` of the C8
example. -/
def c8SubRecord : Function :=
  { name := "sub"
    parameters := ["x", "y"]
    return_type := none
    docstring := none
    decorators := some ["dec"] }

/-- C8: on the module defining `add`, `sub` (decorated), `mul` in that
order, `get_functions` returns exactly those three records in that order;
and in general, wrapping any module-level function definition in decorators
leaves the sequence of reported function names — and hence the position of
every record — unchanged. -/
theorem c8_declaration_order :
    functionsCaptures c8Tree
        = [plainDefRecord "add", c8SubRecord, plainDefRecord "mul"]
    ∧ ∀ (txt : String) (pre post : List Node) (ds : List String) (fd : Node),
        fd.kind = "function_definition" → fd.named = true →
        (functionsCaptures (Node.node none "module" true txt
            (pre ++ fd :: post))).map Function.name
          = (functionsCaptures (Node.node none "module" true txt
              (pre ++ mkDecorated ds fd :: post))).map Function.name := by
  refine ⟨by decide, ?_⟩
  intro txt pre post ds fd hfd hnm
  rw [functionsCaptures_node, functionsCaptures_node, List.map_append,
    List.map_append]
  congr 1
  · rw [moduleFuncContrib_module, moduleFuncContrib_module,
      List.filter_append, List.filter_append, List.filter_cons,
      List.filter_cons, hnm, show (mkDecorated ds fd).named = true from rfl]
    simp only [if_true]
    rw [List.filterMap_append, List.filterMap_append, List.map_append,
      List.map_append]
    congr 1
    rw [List.filterMap_cons, List.filterMap_cons]
    have key := funcChildCapture_mkDecorated_name ds fd hfd
    cases h1 : funcChildCapture fd with
    | none =>
      rw [h1] at key
      cases h2 : funcChildCapture (mkDecorated ds fd) with
      | none => simp [h1, h2]
      | some gd =>
        rw [h2] at key
        simp at key
    | some gf =>
      cases h2 : funcChildCapture (mkDecorated ds fd) with
      | none =>
        rw [h1, h2] at key
        simp at key
      | some gd =>
        rw [h1, h2] at key
        have hk : gd.name = gf.name := by simpa using key
        simp [h1, h2, hk]
  · rw [List.flatMap_append, List.flatMap_append, List.flatMap_cons,
      List.flatMap_cons, functionsCaptures_mkDecorated]

end Autodocs
